import Mathlib

/-!
Shallow embedding of the SoroSusu rotating-savings contract (`src/src/lib.rs`).

Modelling conventions:
* Addresses and token identifiers are `Nat`; the contract's own custody address
  is the constant `contractAddr`.
* Soroban instance storage is a `State` record with one field per `DataKey`
  constructor: `Admin`, `CircleCount`, `Circle(u64)`, `Member(Address)`,
  `Deposit(u64, Address)`, `EarlyPayoutRequest(u64, Address)`, `GroupReserve`.
  Map-valued fields are total functions; `Deposit` and `EarlyPayoutRequest`
  keys use `Bool` because the code reads them with `unwrap_or(false)` /
  `has`.
* Machine integers are `Nat` with explicit bounds: `u64` values live below
  `U64 = 2 ^ 64`, `u32` below `U32 = 2 ^ 32`.  Rust arithmetic (`+=`, `+`)
  is compiled with overflow checks in Soroban builds, so an overflowing
  addition panics; we model a panic as an `Except.error`, aborting the call.
* Every panic (`unwrap`, `panic!`, overflow, failed token transfer) traps the
  Soroban invocation, and the host then discards all tentative storage
  writes.  Operations therefore return `Except Err State`, threading a
  tentative state; `commit` applies the host rule: keep the new state on
  success, keep the caller-visible old state on any error.
* The external `token::Client::transfer` call either succeeds or traps; its
  outcome is an explicit `transferOk : Bool` parameter, and executed
  transfers are logged in `State.transfers` as `(from, to, amount)` triples.
-/

namespace SoroSusu

/-- Bound `2 ^ 64` of Rust `u64` values. -/
def U64 : Nat := 2 ^ 64

/-- Bound `2 ^ 32` of Rust `u32` values. -/
def U32 : Nat := 2 ^ 32

/-- The contract's own address, `env.current_contract_address()`. -/
def contractAddr : Nat := 0

/-- The `Member` struct: per-address contribution record. -/
structure MemberRec where
  address : Nat
  has_contributed : Bool
  contribution_count : Nat
  last_contribution_time : Nat
deriving DecidableEq, Repr

/-- The `CircleInfo` struct.  The source file merges two draft field sets;
the constructor expression in `create_circle` uses the union of both
(`members`, `current_recipient`, `member_count`, `current_recipient_index`,
deadline and cycle-duration fields), which is what we embed. -/
structure CircleInfo where
  id : Nat
  creator : Nat
  contribution_amount : Nat
  max_members : Nat
  members : List Nat
  current_recipient : Nat
  member_count : Nat
  current_recipient_index : Nat
  is_active : Bool
  token : Nat
  deadline_timestamp : Nat
  cycle_duration : Nat
deriving DecidableEq, Repr

/-- The panics the contract can raise, one constructor per `panic!` /
`unwrap` site, plus `Overflow` for checked-arithmetic traps and
`TransferFailed` for a trapping external token transfer. -/
inductive Err where
  | CircleNotFound
  | MaxMembersReached
  | AlreadyJoined
  | NotMember
  | DuplicateEarlyPayoutRequest
  | NoPendingEarlyPayoutRequest
  | AlreadyRecipient
  | NotAdmin
  | NoAdminSet
  | PositionNotFound
  | TransferFailed
  | Overflow
deriving DecidableEq, Repr

/-- Instance storage, one field per `DataKey` constructor. -/
structure State where
  admin : Option Nat
  circleCount : Option Nat
  circles : Nat → Option CircleInfo
  memberRecs : Nat → Option MemberRec
  deposits : Nat → Nat → Bool
  earlyRequests : Nat → Nat → Bool
  groupReserve : Option Nat
  transfers : List (Nat × Nat × Nat)

/-- Point update of the `Circle(u64)` key space. -/
def updCircle (f : Nat → Option CircleInfo) (cid : Nat) (c : CircleInfo) :
    Nat → Option CircleInfo :=
  fun k => if k = cid then some c else f k

/-- Point update of the `Member(Address)` key space. -/
def updMember (f : Nat → Option MemberRec) (a : Nat) (m : MemberRec) :
    Nat → Option MemberRec :=
  fun k => if k = a then some m else f k

/-- Point update of a `(u64, Address)`-keyed boolean key space
(`Deposit` and `EarlyPayoutRequest`). -/
def setFlag (f : Nat → Nat → Bool) (cid a : Nat) (b : Bool) :
    Nat → Nat → Bool :=
  fun k u => if k = cid ∧ u = a then b else f k u

/-- The Soroban host's commit rule: a successful invocation keeps its writes,
a trapped invocation leaves storage exactly as before the call. -/
def commit (st : State) : Except Err State → State
  | Except.ok st' => st'
  | Except.error _ => st

/-- Source `fn init(env, admin)`: seeds the circle counter with 0 when absent and
unconditionally stores `admin`.  It contains no already-initialized check
and can never fail. -/
def init (st : State) (admin : Nat) : State :=
  let st1 := if st.circleCount = none then { st with circleCount := some 0 } else st
  { st1 with admin := some admin }

/-- Source `fn create_circle(env, creator, amount, max_members, token, cycle_duration)`:
reads the counter (`unwrap_or(0)`), increments it, builds the new circle with
`deadline = now + cycle_duration`, persists circle and counter, seeds the
group reserve with 0 when absent, and returns the new id. -/
def create_circle (st : State) (creator amount max_members token cycle_duration
    now : Nat) : Except Err (State × Nat) :=
  let circle_count := st.circleCount.getD 0
  if U64 ≤ circle_count + 1 then Except.error Err.Overflow
  else if U64 ≤ now + cycle_duration then Except.error Err.Overflow
  else
    let cid := circle_count + 1
    let new_circle : CircleInfo :=
      { id := cid
        creator := creator
        contribution_amount := amount
        max_members := max_members
        members := []
        current_recipient := creator
        member_count := 0
        current_recipient_index := 0
        is_active := true
        token := token
        deadline_timestamp := now + cycle_duration
        cycle_duration := cycle_duration }
    let st1 := { st with circles := updCircle st.circles cid new_circle,
                         circleCount := some cid }
    let st2 := if st1.groupReserve = none then { st1 with groupReserve := some 0 }
               else st1
    Except.ok (st2, cid)

/-- Source `fn join_circle(env, user, circle_id)`: loads the circle (`unwrap`),
rejects a full circle, rejects a user who already has a `Member(user)`
record (the key has no circle component), then appends the user to
`members`, stores a zeroed `Member` record and bumps `member_count`. -/
def join_circle (st : State) (user circle_id : Nat) : Except Err State :=
  match st.circles circle_id with
  | none => Except.error Err.CircleNotFound
  | some circle =>
    if circle.max_members ≤ circle.member_count then
      Except.error Err.MaxMembersReached
    else if (st.memberRecs user).isSome then
      Except.error Err.AlreadyJoined
    else
      let circle' := { circle with members := circle.members ++ [user],
                                   member_count := circle.member_count + 1 }
      let new_member : MemberRec :=
        { address := user, has_contributed := false,
          contribution_count := 0, last_contribution_time := 0 }
      Except.ok { st with circles := updCircle st.circles circle_id circle',
                          memberRecs := updMember st.memberRecs user new_member }

/-- Source `fn deposit(env, user, circle_id)`: loads circle and member record,
adds the 1 % late penalty (`contribution_amount / 100`) to the group
reserve when `now > deadline_timestamp`, transfers `contribution_amount`
from the user to the contract, sets the `Deposit(circle_id, user)` marker,
updates the member record (`has_contributed`, `contribution_count`,
`last_contribution_time`), and sets `deadline_timestamp := now +
cycle_duration`. -/
def deposit (st : State) (user circle_id now : Nat) (transferOk : Bool) :
    Except Err State :=
  match st.circles circle_id with
  | none => Except.error Err.CircleNotFound
  | some circle =>
    match st.memberRecs user with
    | none => Except.error Err.NotMember
    | some member =>
      let penalty := circle.contribution_amount / 100
      let reserve0 := st.groupReserve.getD 0
      if circle.deadline_timestamp < now ∧ U64 ≤ reserve0 + penalty then
        Except.error Err.Overflow
      else
        let st1 := if circle.deadline_timestamp < now then
                     { st with groupReserve := some (reserve0 + penalty) }
                   else st
        if transferOk = false then Except.error Err.TransferFailed
        else
          let st2 := { st1 with
            transfers := st1.transfers ++ [(user, contractAddr, circle.contribution_amount)],
            deposits := setFlag st1.deposits circle_id user true }
          if U32 ≤ member.contribution_count + 1 then Except.error Err.Overflow
          else
            let member' := { member with has_contributed := true,
                                          contribution_count := member.contribution_count + 1,
                                          last_contribution_time := now }
            let st3 := { st2 with memberRecs := updMember st2.memberRecs user member' }
            if U64 ≤ now + circle.cycle_duration then Except.error Err.Overflow
            else
              let circle' := { circle with deadline_timestamp := now + circle.cycle_duration }
              Except.ok { st3 with circles := updCircle st3.circles circle_id circle' }

/-- Source `fn request_early_payout(env, user, circle_id)`: loads the circle,
requires `user ∈ members`, rejects a duplicate pending request, then
stores the `EarlyPayoutRequest(circle_id, user)` flag. -/
def request_early_payout (st : State) (user circle_id : Nat) : Except Err State :=
  match st.circles circle_id with
  | none => Except.error Err.CircleNotFound
  | some circle =>
    if user ∈ circle.members then
      if st.earlyRequests circle_id user then
        Except.error Err.DuplicateEarlyPayoutRequest
      else
        Except.ok { st with earlyRequests := setFlag st.earlyRequests circle_id user true }
    else Except.error Err.NotMember

/-- Operation `Vec::swap(i, j)` on the member list: exchanges the entries at two
in-bounds positions and is the identity otherwise (the source only calls it
on indices produced by `position`, which are in bounds). -/
def listSwap {α : Type} (l : List α) (i j : Nat) : List α :=
  match l[i]?, l[j]? with
  | some a, some b => (l.set i b).set j a
  | _, _ => l

/-- The sum the source computes by looping over the (already swapped)
member list: `contribution_amount` for every member whose
`Deposit(circle_id, member)` marker is set. -/
def totalDeposits (dep : Nat → Nat → Bool) (circle_id : Nat)
    (members : List Nat) (amount : Nat) : Nat :=
  members.foldl (fun acc m => if dep circle_id m then acc + amount else acc) 0

/-- Source `fn approve_early_payout(env, admin, circle_id, user)`: checks the caller
against the stored admin, loads the circle, requires a pending request,
rejects when `user` is already `current_recipient`, locates `user`'s and the
current recipient's positions (`position(..).unwrap()`), swaps them, sets
`current_recipient := user`, saves the circle, removes the request, then
sums the deposits collected so far and transfers that amount to `user`
when positive. -/
def approve_early_payout (st : State) (admin circle_id user : Nat)
    (transferOk : Bool) : Except Err State :=
  match st.admin with
  | none => Except.error Err.NoAdminSet
  | some stored_admin =>
    if admin ≠ stored_admin then Except.error Err.NotAdmin
    else
      match st.circles circle_id with
      | none => Except.error Err.CircleNotFound
      | some circle =>
        if st.earlyRequests circle_id user = false then
          Except.error Err.NoPendingEarlyPayoutRequest
        else if circle.current_recipient = user then
          Except.error Err.AlreadyRecipient
        else
          match circle.members.findIdx? (fun m => m == user),
                circle.members.findIdx? (fun m => m == circle.current_recipient) with
          | some user_index, some current_recipient_index =>
            let members' := listSwap circle.members user_index current_recipient_index
            let circle' := { circle with members := members',
                                         current_recipient := user }
            let st1 := { st with circles := updCircle st.circles circle_id circle' }
            let st2 := { st1 with earlyRequests := setFlag st1.earlyRequests circle_id user false }
            let total := totalDeposits st2.deposits circle_id circle'.members
                           circle.contribution_amount
            if 0 < total then
              if transferOk then
                Except.ok { st2 with transfers := st2.transfers ++ [(contractAddr, user, total)] }
              else Except.error Err.TransferFailed
            else Except.ok st2
          | _, _ => Except.error Err.PositionNotFound

/-- One public invocation of the contract, with every external input
(caller-supplied arguments, the ledger clock, the transfer outcome) made
explicit. -/
inductive Call where
  | initC (admin : Nat)
  | createC (creator amount max_members token cycle_duration now : Nat)
  | joinC (user circle_id : Nat)
  | depositC (user circle_id now : Nat) (transferOk : Bool)
  | requestC (user circle_id : Nat)
  | approveC (admin circle_id user : Nat) (transferOk : Bool)
deriving DecidableEq, Repr

/-- Dispatch one call, forgetting the returned circle id. -/
def stepCall (st : State) : Call → Except Err State
  | Call.initC a => Except.ok (init st a)
  | Call.createC cr am mm tk cd now => (create_circle st cr am mm tk cd now).map Prod.fst
  | Call.joinC u cid => join_circle st u cid
  | Call.depositC u cid now tOk => deposit st u cid now tOk
  | Call.requestC u cid => request_early_payout st u cid
  | Call.approveC a cid u tOk => approve_early_payout st a cid u tOk

/-- Run a sequence of `join_circle` calls, committing each one
(errors leave the state unchanged, as the host rolls back). -/
def joinSeq (st : State) : List (Nat × Nat) → State
  | [] => st
  | (u, cid) :: rest => joinSeq (commit st (join_circle st u cid)) rest

/-- Capacity invariant: every stored circle satisfies
`member_count ≤ max_members`. -/
def CapacityInv (st : State) : Prop :=
  ∀ cid c, st.circles cid = some c → c.member_count ≤ c.max_members

/-- Membership invariant: every stored circle has pairwise-distinct member
addresses, each of which has a `Member(address)` record. -/
def MembershipInv (st : State) : Prop :=
  ∀ cid c, st.circles cid = some c →
    c.members.Nodup ∧ ∀ u ∈ c.members, (st.memberRecs u).isSome = true

/-- Convenience constructor for concrete `Member` records. -/
def mkMember (a : Nat) (hc : Bool) (cc lt : Nat) : MemberRec :=
  { address := a, has_contributed := hc, contribution_count := cc,
    last_contribution_time := lt }

/-- Empty circle key space. -/
def noCircles : Nat → Option CircleInfo := fun _ => none

/-- Empty member key space. -/
def noMembers : Nat → Option MemberRec := fun _ => none

/-- All-false boolean key space. -/
def noFlags : Nat → Nat → Bool := fun _ _ => false

/-- Concrete state for the C1 counterexample: an admin is already stored. -/
def stC1 : State :=
  { admin := some 1, circleCount := some 3, circles := noCircles,
    memberRecs := noMembers, deposits := noFlags, earlyRequests := noFlags,
    groupReserve := none, transfers := [] }

/-- Concrete circle for the C2 witness. -/
def circC2 : CircleInfo :=
  { id := 1, creator := 1, contribution_amount := 1000, max_members := 5,
    members := [2], current_recipient := 1, member_count := 1,
    current_recipient_index := 0, is_active := true, token := 9,
    deadline_timestamp := 100, cycle_duration := 50 }

/-- Concrete state for the C2 witness. -/
def stC2w : State :=
  { admin := some 1, circleCount := some 1,
    circles := updCircle noCircles 1 circC2,
    memberRecs := updMember noMembers 2 (mkMember 2 false 0 0),
    deposits := noFlags, earlyRequests := noFlags,
    groupReserve := some 0, transfers := [] }

/-- Concrete circle for the C3 witness: rotation `[2, 3, 4]`, current
recipient `2`. -/
def circC3 : CircleInfo :=
  { id := 1, creator := 2, contribution_amount := 100, max_members := 5,
    members := [2, 3, 4], current_recipient := 2, member_count := 3,
    current_recipient_index := 0, is_active := true, token := 9,
    deadline_timestamp := 100, cycle_duration := 50 }

/-- Concrete state for the C3 witness: member `4` has a pending early-payout
request in circle `1`. -/
def stC3w : State :=
  { admin := some 7, circleCount := some 1,
    circles := updCircle noCircles 1 circC3,
    memberRecs := updMember (updMember (updMember noMembers 2 (mkMember 2 false 0 0))
      3 (mkMember 3 false 0 0)) 4 (mkMember 4 false 0 0),
    deposits := noFlags,
    earlyRequests := setFlag noFlags 1 4 true,
    groupReserve := some 0, transfers := [] }

/-- Concrete state for the C4 counterexample: the circle counter sits at
`u64::MAX`. -/
def stC4 : State :=
  { admin := some 1, circleCount := some (U64 - 1), circles := noCircles,
    memberRecs := noMembers, deposits := noFlags, earlyRequests := noFlags,
    groupReserve := some 0, transfers := [] }

/-- Concrete state for the C4 witness: the circle counter sits at `7`. -/
def stC4w : State :=
  { admin := some 1, circleCount := some 7, circles := noCircles,
    memberRecs := noMembers, deposits := noFlags, earlyRequests := noFlags,
    groupReserve := some 0, transfers := [] }

/-- Concrete circle for the C5 witness: capacity 50, nobody joined yet. -/
def circC5 : CircleInfo :=
  { id := 1, creator := 1, contribution_amount := 1000, max_members := 50,
    members := [], current_recipient := 1, member_count := 0,
    current_recipient_index := 0, is_active := true, token := 9,
    deadline_timestamp := 100, cycle_duration := 50 }

/-- Concrete state for the C5 witness. -/
def stC5w : State :=
  { admin := some 1, circleCount := some 1,
    circles := updCircle noCircles 1 circC5,
    memberRecs := noMembers, deposits := noFlags, earlyRequests := noFlags,
    groupReserve := some 0, transfers := [] }

/-- Call list for the C5 witness: users `1..50` each join circle `1`. -/
def joinCallsC5 : List (Nat × Nat) := (List.range 50).map (fun i => (i + 1, 1))

/-- Expected circle record after the 50 joins of the C5 witness. -/
def circC5full : CircleInfo :=
  { circC5 with members := (List.range 50).map (· + 1), member_count := 50 }

/-- Concrete circle for the C6 counterexample: full (capacity 1) and
containing member `2`. -/
def circC6cx : CircleInfo :=
  { id := 1, creator := 1, contribution_amount := 1000, max_members := 1,
    members := [2], current_recipient := 1, member_count := 1,
    current_recipient_index := 0, is_active := true, token := 9,
    deadline_timestamp := 100, cycle_duration := 50 }

/-- Concrete state for the C6 counterexample. -/
def stC6cx : State :=
  { admin := some 1, circleCount := some 1,
    circles := updCircle noCircles 1 circC6cx,
    memberRecs := updMember noMembers 2 (mkMember 2 false 0 0),
    deposits := noFlags, earlyRequests := noFlags,
    groupReserve := some 0, transfers := [] }

/-- Concrete circle for the C6 witness: members `[2, 3]`, capacity 5. -/
def circC6w : CircleInfo :=
  { id := 1, creator := 1, contribution_amount := 1000, max_members := 5,
    members := [2, 3], current_recipient := 1, member_count := 2,
    current_recipient_index := 0, is_active := true, token := 9,
    deadline_timestamp := 100, cycle_duration := 50 }

/-- Concrete state for the C6 witness. -/
def stC6w : State :=
  { admin := some 1, circleCount := some 1,
    circles := updCircle noCircles 1 circC6w,
    memberRecs := updMember (updMember noMembers 2 (mkMember 2 false 0 0))
      3 (mkMember 3 false 0 0),
    deposits := noFlags, earlyRequests := noFlags,
    groupReserve := some 0, transfers := [] }

/-- Concrete circle for the C7 witness: contribution 1000, deadline 100. -/
def circC7 : CircleInfo :=
  { id := 1, creator := 1, contribution_amount := 1000, max_members := 5,
    members := [2], current_recipient := 1, member_count := 1,
    current_recipient_index := 0, is_active := true, token := 9,
    deadline_timestamp := 100, cycle_duration := 50 }

/-- Concrete state for the C7 witness. -/
def stC7 : State :=
  { admin := some 1, circleCount := some 1,
    circles := updCircle noCircles 1 circC7,
    memberRecs := updMember noMembers 2 (mkMember 2 false 0 0),
    deposits := noFlags, earlyRequests := noFlags,
    groupReserve := some 0, transfers := [] }

/-- Concrete circle for the C8 counterexample: deadline 100, cycle
duration 50. -/
def circC8 : CircleInfo :=
  { id := 1, creator := 1, contribution_amount := 1000, max_members := 5,
    members := [2], current_recipient := 1, member_count := 1,
    current_recipient_index := 0, is_active := true, token := 9,
    deadline_timestamp := 100, cycle_duration := 50 }

/-- Concrete state for the C8 counterexample and witness. -/
def stC8 : State :=
  { admin := some 1, circleCount := some 1,
    circles := updCircle noCircles 1 circC8,
    memberRecs := updMember noMembers 2 (mkMember 2 false 0 0),
    deposits := noFlags, earlyRequests := noFlags,
    groupReserve := some 0, transfers := [] }

/-- Concrete circles for C9: user `2` joined circle `1`; circle `3` is full
(capacity 1, member `4`); circle `5` is open and empty. -/
def circC9a : CircleInfo :=
  { id := 1, creator := 1, contribution_amount := 1000, max_members := 5,
    members := [2], current_recipient := 1, member_count := 1,
    current_recipient_index := 0, is_active := true, token := 9,
    deadline_timestamp := 100, cycle_duration := 50 }

/-- Full circle `3` for C9. -/
def circC9b : CircleInfo :=
  { id := 3, creator := 1, contribution_amount := 1000, max_members := 1,
    members := [4], current_recipient := 1, member_count := 1,
    current_recipient_index := 0, is_active := true, token := 9,
    deadline_timestamp := 100, cycle_duration := 50 }

/-- Open, empty circle `5` for C9. -/
def circC9c : CircleInfo :=
  { id := 5, creator := 1, contribution_amount := 1000, max_members := 5,
    members := [], current_recipient := 1, member_count := 0,
    current_recipient_index := 0, is_active := true, token := 9,
    deadline_timestamp := 100, cycle_duration := 50 }

/-- Concrete state for the C9 counterexample and witness. -/
def stC9 : State :=
  { admin := some 1, circleCount := some 5,
    circles := updCircle (updCircle (updCircle noCircles 1 circC9a) 3 circC9b) 5 circC9c,
    memberRecs := updMember (updMember noMembers 2 (mkMember 2 false 0 0))
      4 (mkMember 4 false 0 0),
    deposits := noFlags, earlyRequests := noFlags,
    groupReserve := some 0, transfers := [] }

/-- Concrete circle for the C10 witness. -/
def circC10 : CircleInfo :=
  { id := 1, creator := 1, contribution_amount := 1000, max_members := 5,
    members := [2], current_recipient := 1, member_count := 1,
    current_recipient_index := 0, is_active := true, token := 9,
    deadline_timestamp := 100, cycle_duration := 50 }

/-- Concrete state for the C10 witness: member `2` already deposited this
cycle (marker set, `contribution_count = 1`). -/
def stC10 : State :=
  { admin := some 1, circleCount := some 1,
    circles := updCircle noCircles 1 circC10,
    memberRecs := updMember noMembers 2 (mkMember 2 true 1 40),
    deposits := setFlag noFlags 1 2 true, earlyRequests := noFlags,
    groupReserve := some 0, transfers := [(2, contractAddr, 1000)] }

/-!
Theorems.  Each claim `Cn` of the review is settled by one theorem below
(plus a witness or counterexample where required).
-/

/-- C1 counterexample: with admin `1` already configured in `stC1`, a second
`init` call does not fail — it silently overwrites the stored admin with the
new address `2`. -/
theorem init_reinit_overwrites_cex :
    stC1.admin = some 1 ∧ (init stC1 2).admin = some 2 ∧ some 2 ≠ stC1.admin :=
  ⟨rfl, rfl, by decide⟩

/-- C1 (amended): `init` never fails; it unconditionally stores the given
admin (overwriting any previously configured one), seeds the circle counter
with 0 only when it is absent, and touches nothing else. -/
theorem init_always_sets_admin :
    ∀ st a, (init st a).admin = some a ∧
      (init st a).circleCount = some (st.circleCount.getD 0) ∧
      (init st a).circles = st.circles ∧
      (init st a).memberRecs = st.memberRecs ∧
      (init st a).groupReserve = st.groupReserve := by
  intro st a
  rcases hc : st.circleCount with _ | c <;> simp [init, hc]

/-- C4 counterexample: with the counter at `u64::MAX`, `create_circle` does
not saturate and return `u64::MAX` again as the claim describes — the
unchecked-by-the-source `circle_count += 1` overflows and the call traps. -/
theorem create_circle_overflow_cex :
    create_circle stC4 1 1000 50 9 604800 0 = Except.error Err.Overflow := rfl

/-- Helper: shape of every successful `create_circle` result — the returned
id is the old counter plus one, it is persisted, and the new circle is
stored under it. -/
theorem create_circle_ok_shape :
    ∀ st cr am mm tk cd now st' id,
      create_circle st cr am mm tk cd now = Except.ok (st', id) →
      id = st.circleCount.getD 0 + 1 ∧ st'.circleCount = some id ∧
      (st'.circles id).isSome = true := by
  intro st cr am mm tk cd now st' id h
  simp only [create_circle] at h
  split at h
  · exact absurd h (by simp)
  · split at h
    · exact absurd h (by simp)
    · simp only [Except.ok.injEq, Prod.mk.injEq] at h
      obtain ⟨hst, hid⟩ := h
      subst hid
      refine ⟨rfl, ?_, ?_⟩
      · rw [← hst]; split <;> rfl
      · rw [← hst]; split <;> simp [updCircle]

/-- Helper: `create_circle` succeeds whenever neither checked addition
overflows. -/
theorem create_circle_ok_of_lt :
    ∀ st cr am mm tk cd now, st.circleCount.getD 0 + 1 < U64 → now + cd < U64 →
      ∃ st', create_circle st cr am mm tk cd now =
        Except.ok (st', st.circleCount.getD 0 + 1) := by
  intro st cr am mm tk cd now h1 h2
  unfold create_circle
  rw [if_neg (Nat.not_le.mpr h1), if_neg (Nat.not_le.mpr h2)]
  exact ⟨_, rfl⟩

/-- C4 (amended): as long as the counter stays below `u64::MAX`, each
`create_circle` call returns `counter + 1` as the id, persists the updated
counter and the new circle, and every id a subsequent successful call
returns is strictly larger; at `u64::MAX` the increment traps instead of
saturating. -/
theorem create_circle_ids_increase :
    ∀ st creator amount mm tk cd now c, st.circleCount = some c →
      c + 1 < U64 → now + cd < U64 →
      ∃ st', create_circle st creator amount mm tk cd now = Except.ok (st', c + 1) ∧
        st'.circleCount = some (c + 1) ∧ c < c + 1 ∧
        (st'.circles (c + 1)).isSome = true ∧
        ∀ cr2 am2 mm2 tk2 cd2 now2 st'' id2,
          create_circle st' cr2 am2 mm2 tk2 cd2 now2 = Except.ok (st'', id2) →
          c + 1 < id2 := by
  intro st creator amount mm tk cd now c hc h1 h2
  have hgd : st.circleCount.getD 0 = c := by rw [hc]; rfl
  obtain ⟨st', hok⟩ := create_circle_ok_of_lt st creator amount mm tk cd now
    (by rw [hgd]; exact h1) h2
  rw [hgd] at hok
  obtain ⟨-, hcnt, hsome⟩ := create_circle_ok_shape _ _ _ _ _ _ _ _ _ hok
  refine ⟨st', hok, hcnt, Nat.lt_succ_self c, hsome, ?_⟩
  intro cr2 am2 mm2 tk2 cd2 now2 st'' id2 h
  obtain ⟨hid2, -, -⟩ := create_circle_ok_shape _ _ _ _ _ _ _ _ _ h
  rw [hcnt] at hid2
  simp only [Option.getD_some] at hid2
  omega

/-- C4 witness: instantiating the amended theorem at the concrete state
`stC4w` whose counter is `7`. -/
theorem create_circle_ids_increase_witness :
    stC4w.circleCount = some 7 ∧ 7 + 1 < U64 ∧ 0 + 604800 < U64 ∧
    ∃ st', create_circle stC4w 1 1000 50 9 604800 0 = Except.ok (st', 7 + 1) ∧
      st'.circleCount = some (7 + 1) ∧ 7 < 7 + 1 ∧
      (st'.circles (7 + 1)).isSome = true ∧
      ∀ cr2 am2 mm2 tk2 cd2 now2 st'' id2,
        create_circle st' cr2 am2 mm2 tk2 cd2 now2 = Except.ok (st'', id2) →
        7 + 1 < id2 :=
  ⟨rfl, by decide, by decide,
   create_circle_ids_increase stC4w 1 1000 50 9 604800 0 7 rfl (by decide) (by decide)⟩

/-- Helper: shape of every successful `deposit` — deadline rebased to
`now + cycle_duration`, reserve bumped by the penalty exactly when late,
member record updated, marker set, one transfer executed, everything else
untouched. -/
theorem deposit_ok_shape :
    ∀ st u cid now tOk st' circle member,
      st.circles cid = some circle → st.memberRecs u = some member →
      deposit st u cid now tOk = Except.ok st' →
      st'.circles cid = some { circle with deadline_timestamp := now + circle.cycle_duration } ∧
      st'.groupReserve = (if circle.deadline_timestamp < now then
          some (st.groupReserve.getD 0 + circle.contribution_amount / 100)
        else st.groupReserve) ∧
      st'.memberRecs u = some { member with
          has_contributed := true,
          contribution_count := member.contribution_count + 1,
          last_contribution_time := now } ∧
      st'.deposits cid u = true ∧
      st'.transfers = st.transfers ++ [(u, contractAddr, circle.contribution_amount)] ∧
      st'.earlyRequests = st.earlyRequests ∧ st'.admin = st.admin ∧
      st'.circleCount = st.circleCount ∧
      (∀ k, k ≠ cid → st'.circles k = st.circles k) ∧
      (∀ v, v ≠ u → st'.memberRecs v = st.memberRecs v) := by
  intro st u cid now tOk st' circle member hc hm hok
  simp only [deposit, hc, hm] at hok
  split at hok
  · exact absurd hok (by simp)
  · split at hok
    · exact absurd hok (by simp)
    · split at hok
      · exact absurd hok (by simp)
      · split at hok
        · exact absurd hok (by simp)
        · simp only [Except.ok.injEq] at hok
          subst hok
          by_cases hl : circle.deadline_timestamp < now <;>
            simp [hl, updCircle, updMember, setFlag] <;>
            exact ⟨fun k hk hk2 => absurd hk2 hk, fun v hv hv2 => absurd hv2 hv⟩

/-- Helper: `deposit` succeeds when circle and member record exist, the
transfer succeeds, and no checked addition overflows. -/
theorem deposit_ok_of :
    ∀ st u cid now circle member,
      st.circles cid = some circle → st.memberRecs u = some member →
      ¬(circle.deadline_timestamp < now ∧
         U64 ≤ st.groupReserve.getD 0 + circle.contribution_amount / 100) →
      member.contribution_count + 1 < U32 → now + circle.cycle_duration < U64 →
      ∃ st', deposit st u cid now true = Except.ok st' := by
  intro st u cid now circle member hc hm hg h32 h64
  simp only [deposit, hc, hm]
  rw [if_neg hg, if_neg (by simp : ¬(true = false)),
    if_neg (Nat.not_le.mpr h32), if_neg (Nat.not_le.mpr h64)]
  exact ⟨_, rfl⟩

/-- C2: every operation is all-or-nothing — any failed call commits no state
mutation at all; in particular a `deposit` whose token transfer fails
propagates the failure and leaves the group reserve, the circle record, the
member record and the deposit marker exactly as before the call. -/
theorem failed_call_leaves_state :
    (∀ st call e, stepCall st call = Except.error e →
      commit st (stepCall st call) = st) ∧
    (∀ st u cid now circle member,
      st.circles cid = some circle → st.memberRecs u = some member →
      ¬(circle.deadline_timestamp < now ∧
         U64 ≤ st.groupReserve.getD 0 + circle.contribution_amount / 100) →
      deposit st u cid now false = Except.error Err.TransferFailed ∧
      commit st (deposit st u cid now false) = st ∧
      (commit st (deposit st u cid now false)).groupReserve = st.groupReserve ∧
      (commit st (deposit st u cid now false)).circles cid = st.circles cid ∧
      (commit st (deposit st u cid now false)).memberRecs u = st.memberRecs u ∧
      (commit st (deposit st u cid now false)).deposits cid u = st.deposits cid u) := by
  constructor
  · intro st call e h
    rw [h]
    rfl
  · intro st u cid now circle member hc hm hg
    have hfail : deposit st u cid now false = Except.error Err.TransferFailed := by
      simp only [deposit, hc, hm]
      rw [if_neg hg]
      rfl
    rw [hfail]
    exact ⟨rfl, rfl, rfl, rfl, rfl, rfl⟩

/-- C2 witness: a concrete deposit with a failing transfer leaves `stC2w`
untouched. -/
theorem failed_call_leaves_state_witness :
    stepCall stC2w (Call.depositC 2 1 30 false) = Except.error Err.TransferFailed ∧
    commit stC2w (stepCall stC2w (Call.depositC 2 1 30 false)) = stC2w ∧
    (commit stC2w (deposit stC2w 2 1 30 false)).groupReserve = stC2w.groupReserve ∧
    (commit stC2w (deposit stC2w 2 1 30 false)).circles 1 = stC2w.circles 1 ∧
    (commit stC2w (deposit stC2w 2 1 30 false)).memberRecs 2 = stC2w.memberRecs 2 ∧
    (commit stC2w (deposit stC2w 2 1 30 false)).deposits 1 2 = stC2w.deposits 1 2 := by
  have h := failed_call_leaves_state.2 stC2w 2 1 30 circC2 (mkMember 2 false 0 0)
    rfl rfl (by decide)
  exact ⟨h.1, failed_call_leaves_state.1 stC2w (Call.depositC 2 1 30 false)
      Err.TransferFailed h.1,
    h.2.2.1, h.2.2.2.1, h.2.2.2.2.1, h.2.2.2.2.2⟩

/-- C7: an accepted deposit made strictly after the deadline increases the
group reserve by exactly `contribution_amount / 100`; an accepted deposit at
or before the deadline leaves the reserve unchanged. -/
theorem deposit_late_penalty :
    ∀ st u cid now tOk st' circle, st.circles cid = some circle →
      deposit st u cid now tOk = Except.ok st' →
      (circle.deadline_timestamp < now →
        st'.groupReserve = some (st.groupReserve.getD 0 + circle.contribution_amount / 100)) ∧
      (now ≤ circle.deadline_timestamp → st'.groupReserve = st.groupReserve) := by
  intro st u cid now tOk st' circle hc hok
  cases hm : st.memberRecs u with
  | none => simp [deposit, hc, hm] at hok
  | some member =>
    obtain ⟨-, h2, -⟩ := deposit_ok_shape st u cid now tOk st' circle member hc hm hok
    constructor
    · intro hl; rw [h2, if_pos hl]
    · intro hl; rw [h2, if_neg (Nat.not_lt.mpr hl)]

/-- C7 witness: in `stC7` (contribution 1000, deadline 100, reserve 0), a
deposit at time 160 puts exactly 10 into the reserve, and a deposit at time
30 leaves the reserve at 0. -/
theorem deposit_late_penalty_witness :
    stC7.circles 1 = some circC7 ∧
    deposit stC7 2 1 160 true = Except.ok (commit stC7 (deposit stC7 2 1 160 true)) ∧
    circC7.deadline_timestamp < 160 ∧
    (commit stC7 (deposit stC7 2 1 160 true)).groupReserve =
      some (stC7.groupReserve.getD 0 + circC7.contribution_amount / 100) ∧
    stC7.groupReserve.getD 0 + circC7.contribution_amount / 100 = 10 ∧
    deposit stC7 2 1 30 true = Except.ok (commit stC7 (deposit stC7 2 1 30 true)) ∧
    (commit stC7 (deposit stC7 2 1 30 true)).groupReserve = stC7.groupReserve :=
  ⟨rfl, rfl, by decide,
   (deposit_late_penalty stC7 2 1 160 true _ circC7 rfl rfl).1 (by decide),
   by decide, rfl,
   (deposit_late_penalty stC7 2 1 30 true _ circC7 rfl rfl).2 (by decide)⟩

/-- C8 counterexample: in `stC8` the circle has deadline 100 and cycle
duration 50, yet an accepted deposit at time 30 leaves the new deadline at
80 = 30 + 50, not at 150 = old deadline + duration — the code rebases the
deadline on the current time, not on the previous deadline. -/
theorem deposit_deadline_cex :
    deposit stC8 2 1 30 true = Except.ok (commit stC8 (deposit stC8 2 1 30 true)) ∧
    ((commit stC8 (deposit stC8 2 1 30 true)).circles 1).map
      CircleInfo.deadline_timestamp = some 80 ∧
    circC8.deadline_timestamp + circC8.cycle_duration = 150 ∧
    (80 : Nat) ≠ 150 :=
  ⟨rfl, by decide, by decide, by decide⟩

/-- C8 (amended): on every accepted deposit the circle's deadline is set to
`now + cycle_duration` (current ledger time plus cycle duration); it equals
`old deadline + cycle_duration` only when the deposit lands exactly at the
old deadline. -/
theorem deposit_sets_deadline_from_now :
    ∀ st u cid now tOk st' circle, st.circles cid = some circle →
      deposit st u cid now tOk = Except.ok st' →
      (st'.circles cid).map CircleInfo.deadline_timestamp =
        some (now + circle.cycle_duration) := by
  intro st u cid now tOk st' circle hc hok
  cases hm : st.memberRecs u with
  | none => simp [deposit, hc, hm] at hok
  | some member =>
    obtain ⟨h1, -⟩ := deposit_ok_shape st u cid now tOk st' circle member hc hm hok
    rw [h1]
    rfl

/-- C8 witness: instantiating the amended theorem on `stC8` at time 30. -/
theorem deposit_sets_deadline_from_now_witness :
    stC8.circles 1 = some circC8 ∧
    deposit stC8 2 1 30 true = Except.ok (commit stC8 (deposit stC8 2 1 30 true)) ∧
    ((commit stC8 (deposit stC8 2 1 30 true)).circles 1).map
      CircleInfo.deadline_timestamp = some (30 + circC8.cycle_duration) :=
  ⟨rfl, rfl,
   deposit_sets_deadline_from_now stC8 2 1 30 true _ circC8 rfl rfl⟩

/-- C10: `deposit` never consults the per-cycle marker — a member whose
`Deposit(circle, member)` marker is already `true` can deposit again in the
same cycle: the call succeeds, transfers `contribution_amount` from the
member a second time, increments `contribution_count` again, and leaves the
marker `true`. -/
theorem deposit_ignores_existing_marker :
    ∀ st u cid now circle member,
      st.circles cid = some circle → st.memberRecs u = some member →
      st.deposits cid u = true →
      (now ≤ circle.deadline_timestamp ∨
        st.groupReserve.getD 0 + circle.contribution_amount / 100 < U64) →
      member.contribution_count + 1 < U32 → now + circle.cycle_duration < U64 →
      ∃ st', deposit st u cid now true = Except.ok st' ∧
        st'.transfers = st.transfers ++ [(u, contractAddr, circle.contribution_amount)] ∧
        (st'.memberRecs u).map MemberRec.contribution_count =
          some (member.contribution_count + 1) ∧
        (st'.memberRecs u).map MemberRec.has_contributed = some true ∧
        st'.deposits cid u = true := by
  intro st u cid now circle member hc hm hdep hg h32 h64
  have hg' : ¬(circle.deadline_timestamp < now ∧
      U64 ≤ st.groupReserve.getD 0 + circle.contribution_amount / 100) := by
    rintro ⟨ha, hb⟩
    rcases hg with h | h
    · exact absurd ha (Nat.not_lt.mpr h)
    · exact absurd hb (Nat.not_le.mpr h)
  obtain ⟨st', hok⟩ := deposit_ok_of st u cid now circle member hc hm hg' h32 h64
  obtain ⟨-, -, h3, h4, h5, -⟩ := deposit_ok_shape st u cid now true st' circle member hc hm hok
  refine ⟨st', hok, h5, ?_, ?_, h4⟩
  · rw [h3]; rfl
  · rw [h3]; rfl

/-- C10 witness: in `stC10` member 2 has already deposited this cycle
(marker set, count 1); a second deposit at time 60 succeeds, logs a second
1000-token transfer, bumps the count to 2 and keeps the marker. -/
theorem deposit_ignores_existing_marker_witness :
    stC10.deposits 1 2 = true ∧
    ∃ st', deposit stC10 2 1 60 true = Except.ok st' ∧
      st'.transfers = stC10.transfers ++ [(2, contractAddr, circC10.contribution_amount)] ∧
      (st'.memberRecs 2).map MemberRec.contribution_count = some (1 + 1) ∧
      (st'.memberRecs 2).map MemberRec.has_contributed = some true ∧
      st'.deposits 1 2 = true :=
  ⟨rfl, deposit_ignores_existing_marker stC10 2 1 60 circC10 (mkMember 2 true 1 40)
    rfl rfl rfl (Or.inl (by decide)) (by decide) (by decide)⟩

/-- Helper: a `join_circle` call either fails, or the circle existed, was
not full, the user had no `Member` record, and the result state appends the
user and bumps the count. -/
theorem join_circle_cases :
    ∀ st u cid, (∃ e, join_circle st u cid = Except.error e) ∨
      ∃ circle, st.circles cid = some circle ∧
        ¬ circle.max_members ≤ circle.member_count ∧
        (st.memberRecs u).isSome = false ∧
        join_circle st u cid = Except.ok { st with
          circles := updCircle st.circles cid { circle with
            members := circle.members ++ [u],
            member_count := circle.member_count + 1 },
          memberRecs := updMember st.memberRecs u
            { address := u, has_contributed := false,
              contribution_count := 0, last_contribution_time := 0 } } := by
  intro st u cid
  cases hc : st.circles cid with
  | none => exact Or.inl ⟨Err.CircleNotFound, by simp [join_circle, hc]⟩
  | some circle =>
    by_cases hfull : circle.max_members ≤ circle.member_count
    · exact Or.inl ⟨Err.MaxMembersReached, by simp [join_circle, hc, hfull]⟩
    · cases hmem : (st.memberRecs u).isSome with
      | true => exact Or.inl ⟨Err.AlreadyJoined, by simp [join_circle, hc, hfull, hmem]⟩
      | false =>
        exact Or.inr ⟨circle, rfl, hfull, rfl, by simp [join_circle, hc, hfull, hmem]⟩

/-- Helper: one committed `join_circle` call preserves the capacity
invariant. -/
theorem capacity_step :
    ∀ st u cid, CapacityInv st → CapacityInv (commit st (join_circle st u cid)) := by
  intro st u cid hInv
  rcases join_circle_cases st u cid with ⟨e, he⟩ | ⟨circle, hc, hfull, hmem, hok⟩
  · rw [he]; exact hInv
  · rw [hok]
    intro cid' c' h'
    simp only [commit, updCircle] at h'
    split at h'
    · cases h'
      have := hInv cid circle hc
      simp only []
      omega
    · exact hInv cid' c' h'

/-- Helper: any sequence of committed `join_circle` calls preserves the
capacity invariant. -/
theorem capacity_joinSeq :
    ∀ calls st, CapacityInv st → CapacityInv (joinSeq st calls) := by
  intro calls
  induction calls with
  | nil => intro st h; exact h
  | cons p rest ih =>
    intro st h
    obtain ⟨u, cid⟩ := p
    exact ih _ (capacity_step st u cid h)

/-- C5: after any sequence of `join_circle` calls every circle still
satisfies `member_count ≤ max_members`, and a join on a circle whose count
already equals `max_members` always fails with `MaxMembersReached`. -/
theorem join_circle_capacity :
    (∀ st calls, CapacityInv st → CapacityInv (joinSeq st calls)) ∧
    (∀ st u cid c, st.circles cid = some c → c.member_count = c.max_members →
      join_circle st u cid = Except.error Err.MaxMembersReached) := by
  constructor
  · intro st calls h; exact capacity_joinSeq calls st h
  · intro st u cid c hc heq
    simp [join_circle, hc, heq]

/-- C5 witness: on a fresh capacity-50 circle, 50 distinct users join
(leaving `member_count = 50 = max_members` with members `1..50`), and the
51st join fails with `MaxMembersReached`. -/
theorem join_circle_capacity_witness :
    CapacityInv stC5w ∧
    CapacityInv (joinSeq stC5w joinCallsC5) ∧
    (joinSeq stC5w joinCallsC5).circles 1 = some circC5full ∧
    circC5full.member_count = 50 ∧ circC5full.max_members = 50 ∧
    circC5full.members.length = 50 ∧
    join_circle (joinSeq stC5w joinCallsC5) 51 1 = Except.error Err.MaxMembersReached := by
  have hInv : CapacityInv stC5w := by
    intro cid c h
    simp only [stC5w, updCircle] at h
    split at h
    · cases h; decide
    · exact absurd h (by simp [noCircles])
  have hfull : (joinSeq stC5w joinCallsC5).circles 1 = some circC5full := by decide
  exact ⟨hInv, join_circle_capacity.1 stC5w joinCallsC5 hInv, hfull, rfl, rfl,
    by decide, join_circle_capacity.2 _ 51 1 circC5full hfull rfl⟩

/-- C9 counterexample: user `2` has joined circle `1`, and circle `3`
(which user `2` never joined) is full — the attempted join on circle `3`
fails, but with `MaxMembersReached`, not with the already-a-member error the
claim promises for every circle. -/
theorem join_other_circle_full_cex :
    (stC9.memberRecs 2).isSome = true ∧
    (2 : Nat) ∈ circC9a.members ∧ stC9.circles 1 = some circC9a ∧
    stC9.circles 3 = some circC9b ∧ (2 : Nat) ∉ circC9b.members ∧
    join_circle stC9 2 3 = Except.error Err.MaxMembersReached ∧
    Err.MaxMembersReached ≠ Err.AlreadyJoined :=
  ⟨rfl, by decide, rfl, rfl, by decide, rfl, by decide⟩

/-- C9 (amended): the duplicate-membership check is keyed by the address
alone — whenever a user has any `Member(user)` record (from joining any
circle), a join on any existing, not-yet-full circle fails with
`AlreadyJoined`, even if the user never joined that circle; on a full
circle `MaxMembersReached` fires first instead. -/
theorem join_rejects_member_record :
    ∀ st u cid c, (st.memberRecs u).isSome = true →
      st.circles cid = some c → c.member_count < c.max_members →
      join_circle st u cid = Except.error Err.AlreadyJoined := by
  intro st u cid c hmem hc hlt
  simp [join_circle, hc, hmem, Nat.not_le.mpr hlt]

/-- C9 witness: user `2` (who joined only circle `1`) is rejected with
`AlreadyJoined` from the open, empty circle `5`. -/
theorem join_rejects_member_record_witness :
    (stC9.memberRecs 2).isSome = true ∧ stC9.circles 5 = some circC9c ∧
    circC9c.member_count < circC9c.max_members ∧
    (2 : Nat) ∉ circC9c.members ∧
    join_circle stC9 2 5 = Except.error Err.AlreadyJoined :=
  ⟨rfl, rfl, by decide, by decide,
   join_rejects_member_record stC9 2 5 circC9c rfl rfl (by decide)⟩

/-- Helper: consing the entry at `k` onto the list with position `k`
overwritten by `x` permutes consing `x` onto the original list. -/
theorem cons_set_perm {α : Type} (x : α) :
    ∀ (xs : List α) (k : Nat) (b : α), xs[k]? = some b →
      List.Perm (b :: xs.set k x) (x :: xs) := by
  intro xs
  induction xs with
  | nil => intro k b h; simp at h
  | cons y ys ih =>
    intro k b h
    cases k with
    | zero =>
      simp only [List.getElem?_cons_zero, Option.some.injEq] at h
      rw [h]
      exact List.Perm.swap x b ys
    | succ m =>
      simp only [List.getElem?_cons_succ] at h
      have h1 := ih m b h
      exact ((List.Perm.swap y b _).trans (h1.cons y)).trans (List.Perm.swap x y ys)

/-- Helper: writing entry `j` into slot `i` and entry `i` into slot `j`
permutes the list. -/
theorem set_set_perm {α : Type} :
    ∀ (l : List α) (i j : Nat) (a b : α), l[i]? = some a → l[j]? = some b →
      List.Perm ((l.set i b).set j a) l := by
  intro l
  induction l with
  | nil => intro i j a b h _; simp at h
  | cons x xs ih =>
    intro i j a b hi hj
    cases i with
    | zero =>
      simp only [List.getElem?_cons_zero, Option.some.injEq] at hi
      subst hi
      cases j with
      | zero => exact List.Perm.refl _
      | succ m =>
        simp only [List.getElem?_cons_succ] at hj
        exact cons_set_perm x xs m b hj
    | succ n =>
      simp only [List.getElem?_cons_succ] at hi
      cases j with
      | zero =>
        simp only [List.getElem?_cons_zero, Option.some.injEq] at hj
        subst hj
        exact cons_set_perm x xs n a hi
      | succ m =>
        simp only [List.getElem?_cons_succ] at hj
        exact (ih n m a b hi hj).cons x

/-- Helper: the `Vec::swap` embedding always permutes the list. -/
theorem listSwap_perm {α : Type} :
    ∀ (l : List α) (i j : Nat), List.Perm (listSwap l i j) l := by
  intro l i j
  unfold listSwap
  split
  · next a b hi hj => exact set_set_perm l i j a b hi hj
  · exact List.Perm.refl l

/-- Helper: shape of every successful `approve_early_payout` — all the
checks passed and the result state swaps the two rotation slots, crowns the
user as current recipient, clears the pending request, and touches no
member record or deposit marker. -/
theorem approve_ok_shape :
    ∀ st a cid u tOk st',
      approve_early_payout st a cid u tOk = Except.ok st' →
      ∃ circle ui ri, st.circles cid = some circle ∧
        st.admin = some a ∧
        st.earlyRequests cid u = true ∧
        circle.current_recipient ≠ u ∧
        circle.members.findIdx? (fun m => m == u) = some ui ∧
        circle.members.findIdx? (fun m => m == circle.current_recipient) = some ri ∧
        st'.circles = updCircle st.circles cid { circle with
          members := listSwap circle.members ui ri, current_recipient := u } ∧
        st'.memberRecs = st.memberRecs ∧
        st'.earlyRequests = setFlag st.earlyRequests cid u false ∧
        st'.admin = st.admin ∧ st'.deposits = st.deposits := by
  intro st a cid u tOk st' h
  cases hadm : st.admin with
  | none => simp [approve_early_payout, hadm] at h
  | some stored =>
    by_cases ha : a = stored
    · subst ha
      cases hc : st.circles cid with
      | none => simp [approve_early_payout, hadm, hc] at h
      | some circle =>
        cases hreq : st.earlyRequests cid u with
        | false => simp [approve_early_payout, hadm, hc, hreq] at h
        | true =>
          by_cases hrec : circle.current_recipient = u
          · simp [approve_early_payout, hadm, hc, hreq, hrec] at h
          · cases hui : circle.members.findIdx? (fun m => m == u) with
            | none => simp [approve_early_payout, hadm, hc, hreq, hrec, hui] at h
            | some ui =>
              cases hri : circle.members.findIdx? (fun m => m == circle.current_recipient) with
              | none => simp [approve_early_payout, hadm, hc, hreq, hrec, hui, hri] at h
              | some ri =>
                refine ⟨circle, ui, ri, rfl, rfl, rfl, hrec, hui, hri, ?_⟩
                simp only [approve_early_payout, hadm, hc, hreq, hui, hri] at h
                rw [if_neg (show ¬(a ≠ a) by simp), if_neg hrec,
                  if_neg (show ¬(true = false) by simp)] at h
                split at h
                · split at h
                  · simp only [Except.ok.injEq] at h
                    rw [← h]
                    exact ⟨rfl, rfl, rfl, rfl, rfl⟩
                  · exact absurd h (by simp)
                · simp only [Except.ok.injEq] at h
                  rw [← h]
                  exact ⟨rfl, rfl, rfl, rfl, rfl⟩
    · simp [approve_early_payout, hadm, ha] at h

/-- Helper: one committed `init` preserves the membership invariant. -/
theorem membership_init :
    ∀ st a, MembershipInv st → MembershipInv (init st a) := by
  intro st a hInv
  have hc : (init st a).circles = st.circles := by unfold init; split <;> rfl
  have hm : (init st a).memberRecs = st.memberRecs := by unfold init; split <;> rfl
  intro cid c h
  rw [hc] at h
  rw [hm]
  exact hInv cid c h

/-- Helper: fields of a successful `create_circle` relevant to the
membership invariant. -/
theorem create_circle_ok_fields :
    ∀ st cr am mm tk cd now st' id,
      create_circle st cr am mm tk cd now = Except.ok (st', id) →
      st'.memberRecs = st.memberRecs ∧
      (st'.circles id).map CircleInfo.members = some [] ∧
      ∀ k, k ≠ id → st'.circles k = st.circles k := by
  intro st cr am mm tk cd now st' id h
  simp only [create_circle] at h
  split at h
  · exact absurd h (by simp)
  · split at h
    · exact absurd h (by simp)
    · simp only [Except.ok.injEq, Prod.mk.injEq] at h
      obtain ⟨hst, hid⟩ := h
      subst hid
      refine ⟨?_, ?_, ?_⟩
      · rw [← hst]; split <;> rfl
      · rw [← hst]; split <;> simp [updCircle]
      · intro k hk
        rw [← hst]; split <;> simp [updCircle, hk]

/-- Helper: one committed `create_circle` preserves the membership
invariant. -/
theorem membership_create :
    ∀ st cr am mm tk cd now, MembershipInv st →
      MembershipInv (commit st ((create_circle st cr am mm tk cd now).map Prod.fst)) := by
  intro st cr am mm tk cd now hInv
  cases hcr : create_circle st cr am mm tk cd now with
  | error e => exact hInv
  | ok p =>
    obtain ⟨st2, id⟩ := p
    have heq : commit st ((Except.ok (st2, id)).map Prod.fst) = st2 := rfl
    rw [heq]
    obtain ⟨hm, hnew, hold⟩ := create_circle_ok_fields _ _ _ _ _ _ _ _ _ hcr
    intro cid' c' h'
    rw [hm]
    by_cases hk : cid' = id
    · subst hk
      rw [h'] at hnew
      simp only [Option.map_some', Option.some.injEq] at hnew
      rw [hnew]
      exact ⟨List.nodup_nil, by intro u hu; cases hu⟩
    · rw [hold cid' hk] at h'
      exact hInv cid' c' h'

/-- Helper: one committed `join_circle` preserves the membership
invariant. -/
theorem membership_join :
    ∀ st u cid, MembershipInv st → MembershipInv (commit st (join_circle st u cid)) := by
  intro st u cid hInv
  rcases join_circle_cases st u cid with ⟨e, he⟩ | ⟨circle, hc, hfull, hmem, hok⟩
  · rw [he]; exact hInv
  · rw [hok]
    intro cid' c' h'
    simp only [commit, updCircle] at h'
    simp only [commit, updMember]
    split at h'
    · cases h'
      have hu_not : u ∉ circle.members := by
        intro hu
        have hs := (hInv cid circle hc).2 u hu
        rw [hmem] at hs
        cases hs
      obtain ⟨hnd, hmm⟩ := hInv cid circle hc
      constructor
      · exact hnd.append (List.nodup_singleton u) (by
          intro a ha hb
          rw [List.mem_singleton] at hb
          subst hb
          exact hu_not ha)
      · intro v hv
        split
        · rfl
        · next hvu =>
          rcases List.mem_append.mp hv with hin | hin
          · exact hmm v hin
          · rw [List.mem_singleton] at hin
            exact absurd hin hvu
    · obtain ⟨hnd, hmm⟩ := hInv cid' c' h'
      refine ⟨hnd, ?_⟩
      intro v hv
      split
      · rfl
      · exact hmm v hv

/-- Helper: one committed `deposit` preserves the membership invariant. -/
theorem membership_deposit :
    ∀ st u cid now tOk, MembershipInv st →
      MembershipInv (commit st (deposit st u cid now tOk)) := by
  intro st u cid now tOk hInv
  cases hres : deposit st u cid now tOk with
  | error e => exact hInv
  | ok st' =>
    have heq : commit st (Except.ok st') = st' := rfl
    rw [heq]
    cases hc : st.circles cid with
    | none => simp [deposit, hc] at hres
    | some circle =>
      cases hm : st.memberRecs u with
      | none => simp [deposit, hc, hm] at hres
      | some member =>
        obtain ⟨h1, -, h3, -, -, -, -, -, hck, hmk⟩ :=
          deposit_ok_shape st u cid now tOk st' circle member hc hm hres
        have hms : ∀ v, (st.memberRecs v).isSome = true →
            (st'.memberRecs v).isSome = true := by
          intro v hv
          by_cases hvu : v = u
          · subst hvu; rw [h3]; rfl
          · rw [hmk v hvu]; exact hv
        intro cid' c' h'
        by_cases hk : cid' = cid
        · subst hk
          rw [h1] at h'
          cases h'
          obtain ⟨hnd, hmm⟩ := hInv cid' circle hc
          exact ⟨hnd, fun v hv => hms v (hmm v hv)⟩
        · rw [hck cid' hk] at h'
          obtain ⟨hnd, hmm⟩ := hInv cid' c' h'
          exact ⟨hnd, fun v hv => hms v (hmm v hv)⟩

/-- Helper: one committed `request_early_payout` preserves the membership
invariant. -/
theorem membership_request :
    ∀ st u cid, MembershipInv st →
      MembershipInv (commit st (request_early_payout st u cid)) := by
  intro st u cid hInv
  cases hres : request_early_payout st u cid with
  | error e => exact hInv
  | ok st' =>
    have heq : commit st (Except.ok st') = st' := rfl
    rw [heq]
    have hfields : st'.circles = st.circles ∧ st'.memberRecs = st.memberRecs := by
      simp only [request_early_payout] at hres
      split at hres
      · exact absurd hres (by simp)
      · split at hres
        · split at hres
          · exact absurd hres (by simp)
          · simp only [Except.ok.injEq] at hres
            rw [← hres]
            exact ⟨rfl, rfl⟩
        · exact absurd hres (by simp)
    intro cid' c' h'
    rw [hfields.1] at h'
    rw [hfields.2]
    exact hInv cid' c' h'

/-- Helper: one committed `approve_early_payout` preserves the membership
invariant (the swap is a permutation of the member list). -/
theorem membership_approve :
    ∀ st a cid u tOk, MembershipInv st →
      MembershipInv (commit st (approve_early_payout st a cid u tOk)) := by
  intro st a cid u tOk hInv
  cases hres : approve_early_payout st a cid u tOk with
  | error e => exact hInv
  | ok st' =>
    have heq : commit st (Except.ok st') = st' := rfl
    rw [heq]
    obtain ⟨circle, ui, ri, hc, -, -, -, -, -, hcir, hmem, -, -, -⟩ :=
      approve_ok_shape st a cid u tOk st' hres
    intro cid' c' h'
    rw [hcir] at h'
    rw [hmem]
    simp only [updCircle] at h'
    split at h'
    · cases h'
      obtain ⟨hnd, hmm⟩ := hInv cid circle hc
      have hperm := listSwap_perm circle.members ui ri
      constructor
      · exact hperm.nodup_iff.mpr hnd
      · intro v hv
        exact hmm v (hperm.mem_iff.mp hv)
    · exact hInv cid' c' h'

/-- C6 counterexample: circle `1` in `stC6cx` is full (capacity 1) and
already contains user `2` — the re-join by `2` fails, but with
`MaxMembersReached` (the capacity check runs first), not `AlreadyJoined`. -/
theorem join_rejoin_full_cex :
    (2 : Nat) ∈ circC6cx.members ∧ stC6cx.circles 1 = some circC6cx ∧
    join_circle stC6cx 2 1 = Except.error Err.MaxMembersReached ∧
    Err.MaxMembersReached ≠ Err.AlreadyJoined :=
  ⟨by decide, rfl, rfl, by decide⟩

/-- C6 (amended): in any state whose circles have pairwise-distinct,
record-backed members, every operation preserves pairwise distinctness of
every circle's member list, and a re-join by a member already present in a
not-yet-full circle fails with `AlreadyJoined` leaving the state untouched
(on a full circle `MaxMembersReached` fires first). -/
theorem members_pairwise_distinct :
    (∀ st call, MembershipInv st → MembershipInv (commit st (stepCall st call))) ∧
    (∀ st u cid c, MembershipInv st → st.circles cid = some c → u ∈ c.members →
      c.member_count < c.max_members →
      join_circle st u cid = Except.error Err.AlreadyJoined ∧
      commit st (join_circle st u cid) = st) := by
  constructor
  · intro st call hInv
    cases call with
    | initC a => exact membership_init st a hInv
    | createC cr am mm tk cd now => exact membership_create st cr am mm tk cd now hInv
    | joinC u cid => exact membership_join st u cid hInv
    | depositC u cid now tOk => exact membership_deposit st u cid now tOk hInv
    | requestC u cid => exact membership_request st u cid hInv
    | approveC a cid u tOk => exact membership_approve st a cid u tOk hInv
  · intro st u cid c hInv hc hu hlt
    have hmem : (st.memberRecs u).isSome = true := (hInv cid c hc).2 u hu
    have hjoin : join_circle st u cid = Except.error Err.AlreadyJoined := by
      simp [join_circle, hc, hmem, Nat.not_le.mpr hlt]
    exact ⟨hjoin, by rw [hjoin]; rfl⟩

/-- C6 witness: `stC6w` satisfies the invariant; member `2` of the open
circle `1` is rejected with `AlreadyJoined`, the state is untouched, and a
fresh join by `4` preserves the invariant. -/
theorem members_pairwise_distinct_witness :
    MembershipInv stC6w ∧
    join_circle stC6w 2 1 = Except.error Err.AlreadyJoined ∧
    commit stC6w (join_circle stC6w 2 1) = stC6w ∧
    MembershipInv (commit stC6w (stepCall stC6w (Call.joinC 4 1))) := by
  have hInv : MembershipInv stC6w := by
    intro cid c h
    simp only [stC6w, updCircle] at h
    split at h
    · cases h
      exact ⟨by decide, by decide⟩
    · exact absurd h (by simp [noCircles])
  have h2 := members_pairwise_distinct.2 stC6w 2 1 circC6w hInv rfl (by decide) (by decide)
  exact ⟨hInv, h2.1, h2.2, members_pairwise_distinct.1 stC6w (Call.joinC 4 1) hInv⟩

/-- Helper: with the stored admin matching, an existing circle and no
pending request, `approve_early_payout` fails with
`NoPendingEarlyPayoutRequest`. -/
theorem approve_no_pending :
    ∀ st a cid u tOk c, st.admin = some a → st.circles cid = some c →
      st.earlyRequests cid u = false →
      approve_early_payout st a cid u tOk =
        Except.error Err.NoPendingEarlyPayoutRequest := by
  intro st a cid u tOk c ha hc hr
  simp [approve_early_payout, ha, hc, hr]

/-- C3: an admin-approved early payout for a requesting member who is not
the current recipient swaps the member's rotation slot with the current
recipient's slot (the member lands exactly in the recipient's former slot
and vice versa), removes the pending request, and a second approval without
a new request fails with `NoPendingEarlyPayoutRequest`. -/
theorem approve_early_payout_swaps :
    ∀ st a cid u circle ui ri,
      st.admin = some a →
      st.circles cid = some circle →
      st.earlyRequests cid u = true →
      circle.current_recipient ≠ u →
      circle.members.findIdx? (fun m => m == u) = some ui →
      circle.members.findIdx? (fun m => m == circle.current_recipient) = some ri →
      circle.members[ui]? = some u →
      circle.members[ri]? = some circle.current_recipient →
      ∃ st', approve_early_payout st a cid u true = Except.ok st' ∧
        st'.circles cid = some { circle with
          members := listSwap circle.members ui ri, current_recipient := u } ∧
        (listSwap circle.members ui ri)[ri]? = some u ∧
        (listSwap circle.members ui ri)[ui]? = some circle.current_recipient ∧
        st'.earlyRequests cid u = false ∧
        ∀ tOk2, approve_early_payout st' a cid u tOk2 =
          Except.error Err.NoPendingEarlyPayoutRequest := by
  intro st a cid u circle ui ri ha hc hreq hrec hui hri hgu hgr
  have hij : ui ≠ ri := by
    intro h
    rw [h, hgr] at hgu
    injection hgu with hh
    exact hrec hh
  have hlt_ui : ui < circle.members.length := by
    rcases List.getElem?_eq_some_iff.mp hgu with ⟨hb, -⟩
    exact hb
  have hlt_ri : ri < circle.members.length := by
    rcases List.getElem?_eq_some_iff.mp hgr with ⟨hb, -⟩
    exact hb
  have hswap : listSwap circle.members ui ri =
      (circle.members.set ui circle.current_recipient).set ri u := by
    unfold listSwap
    rw [hgu, hgr]
  have hsri : (listSwap circle.members ui ri)[ri]? = some u := by
    rw [hswap]
    exact List.getElem?_set_self (by simpa using hlt_ri)
  have hsui : (listSwap circle.members ui ri)[ui]? = some circle.current_recipient := by
    rw [hswap, List.getElem?_set_ne (Ne.symm hij)]
    exact List.getElem?_set_self hlt_ui
  cases hok : approve_early_payout st a cid u true with
  | error e =>
    exfalso
    simp only [approve_early_payout, ha, hc, hreq, hui, hri] at hok
    rw [if_neg (show ¬(a ≠ a) by simp), if_neg hrec,
      if_neg (show ¬(true = false) by simp)] at hok
    split at hok
    · simp at hok
    · simp at hok
  | ok st' =>
  obtain ⟨circle2, ui2, ri2, hc2, -, -, -, hui2, hri2, hcir, hmem, hreq2, hadm2, -⟩ :=
    approve_ok_shape st a cid u true st' hok
  rw [hc] at hc2
  injection hc2 with hceq
  subst hceq
  rw [hui] at hui2
  injection hui2 with huieq
  subst huieq
  rw [hri] at hri2
  injection hri2 with hrieq
  subst hrieq
  have hcirc' : st'.circles cid = some { circle with
      members := listSwap circle.members ui ri, current_recipient := u } := by
    rw [hcir]
    simp [updCircle]
  have hreq' : st'.earlyRequests cid u = false := by
    rw [hreq2]
    simp [setFlag]
  refine ⟨st', rfl, hcirc', hsri, hsui, hreq', ?_⟩
  intro tOk2
  exact approve_no_pending st' a cid u tOk2 _ (by rw [hadm2, ha]) hcirc' hreq'

/-- C3 witness: in `stC3w` (members `[2, 3, 4]`, current recipient `2`,
member `4` has a pending request) the admin's approval swaps slots 0 and 2,
`4` lands in slot 0, `2` lands in slot 2, the request is gone, and a second
approval fails with `NoPendingEarlyPayoutRequest`. -/
theorem approve_early_payout_swaps_witness :
    stC3w.admin = some 7 ∧ stC3w.circles 1 = some circC3 ∧
    stC3w.earlyRequests 1 4 = true ∧ circC3.current_recipient ≠ 4 ∧
    circC3.members.findIdx? (fun m => m == 4) = some 2 ∧
    circC3.members.findIdx? (fun m => m == circC3.current_recipient) = some 0 ∧
    circC3.members[2]? = some 4 ∧ circC3.members[0]? = some circC3.current_recipient ∧
    ∃ st', approve_early_payout stC3w 7 1 4 true = Except.ok st' ∧
      st'.circles 1 = some { circC3 with
        members := listSwap circC3.members 2 0, current_recipient := 4 } ∧
      (listSwap circC3.members 2 0)[0]? = some 4 ∧
      (listSwap circC3.members 2 0)[2]? = some circC3.current_recipient ∧
      st'.earlyRequests 1 4 = false ∧
      ∀ tOk2, approve_early_payout st' 7 1 4 tOk2 =
        Except.error Err.NoPendingEarlyPayoutRequest :=
  ⟨rfl, rfl, rfl, by decide, by decide, by decide, by decide, by decide,
   approve_early_payout_swaps stC3w 7 1 4 circC3 2 0 rfl rfl rfl (by decide)
     (by decide) (by decide) (by decide) (by decide)⟩

end SoroSusu
